import Mathlib

/-
Verification of the dataframe comparison utility (`compare` in src/my_python.py)
against its natural-language specification.

The embedding models a pandas DataFrame as a list of column names together with a
list of rows, a row being a list of cell values laid out in column order.  Cell
values are integers, strings, or the missing marker NA.  The pandas operations the
source calls — drop_duplicates (keep first), drop_duplicates(keep=False),
duplicated-row extraction, inner merge on the common columns, and concat with
column alignment — are translated directly below.  Python's result dictionary is
modelled as an insertion-ordered association list with overwrite-on-reassignment,
matching dict semantics; a computation step that raises inside the source's bare
try/except leaves the dictionary unchanged, matching the catch-log-and-continue
behaviour of lines 164-222.
-/

namespace TableDiff

/-- A pandas cell value: an integer, a string, or the missing marker (NaN/NA). -/
inductive Val where
  | intV (n : Int)
  | strV (s : String)
  | naV
deriving DecidableEq, Repr

/-- A row: cell values laid out in the order of the owning frame's columns. -/
abbrev Row := List Val

/-- A pandas DataFrame: named columns and a list of rows. -/
structure DF where
  cols : List String
  rows : List Row
deriving DecidableEq, Repr

/-- `df.shape`: (row count, column count). -/
def shape (d : DF) : Nat × Nat := (d.rows.length, d.cols.length)

/-- Look a cell of row `r` (laid out by `cols`) up by column name, as pandas
addresses cells by column label; missing columns read as NA. -/
def cellAt (cols : List String) (r : Row) (c : String) : Val :=
  ((cols.zip r).lookup c).getD .naV

/-- `drop_duplicates()` with the default `keep='first'`: keep the first
occurrence of every row value, drop later repeats. -/
def dedupFirst : List Row → List Row
  | [] => []
  | r :: rs => r :: (dedupFirst rs).filter (fun s => s ≠ r)

/-- `x.drop_duplicates()` at the frame level (line 165). -/
def dedupDF (d : DF) : DF := ⟨d.cols, dedupFirst d.rows⟩

/-- `drop_duplicates(keep=False)` (lines 169-170): keep exactly the rows whose
full value occurs exactly once in the frame, dropping every duplicated value
entirely. -/
def dropDupKeepFalse (l : List Row) : List Row :=
  l.filter (fun r => l.count r == 1)

/-- Helper for `x[x.duplicated()]`: walk the rows, keeping an occurrence when an
equal row was already seen earlier. -/
def dupRowsGo (seen : List Row) : List Row → List Row
  | [] => []
  | r :: rs => if r ∈ seen then r :: dupRowsGo (r :: seen) rs
               else dupRowsGo (r :: seen) rs

/-- `x[x.duplicated()]` (lines 176-177): the rows marked as duplicates of an
earlier row (pandas `duplicated` with default `keep='first'`). -/
def dupRows (l : List Row) : List Row := dupRowsGo [] l

/-- The columns `pd.merge` joins on when no key is given: the columns of `a`
that also appear in `b`, in `a`'s order. -/
def commonCols (a b : DF) : List String :=
  a.cols.filter (fun c => c ∈ b.cols)

/-- The combined row `pd.merge` produces for a matching pair: the left row's
values for all left columns, then the right row's values for the right-only
columns. -/
def mergeRow (a b : DF) (ra rb : Row) : Row :=
  a.cols.map (cellAt a.cols ra) ++
    (b.cols.filter (fun c => ¬ c ∈ a.cols)).map (cellAt b.cols rb)

/-- `pd.merge(a, b, how='inner')` (line 165): joins on the common columns; with
no common column pandas raises `MergeError`, modelled as `none` (the source
catches it at line 166). Matching pairs are emitted left-row-major, as pandas
orders an inner merge by the left keys. -/
def mergeInner (a b : DF) : Option DF :=
  if commonCols a b = [] then none
  else some
    { cols := a.cols ++ b.cols.filter (fun c => ¬ c ∈ a.cols),
      rows := a.rows.flatMap (fun ra =>
        b.rows.filterMap (fun rb =>
          if (commonCols a b).all (fun c => cellAt a.cols ra c == cellAt b.cols rb c)
          then some (mergeRow a b ra rb) else none)) }

/-- `pd.concat([a, b], ignore_index=True)` (lines 169-170): stack the two frames,
aligning columns by name; the result's columns are `a`'s followed by `b`'s new
ones, and cells absent from a source frame read as NA. -/
def concatDF (a b : DF) : DF :=
  let cols := a.cols ++ b.cols.filter (fun c => ¬ c ∈ a.cols)
  { cols := cols,
    rows := a.rows.map (fun r => cols.map (cellAt a.cols r)) ++
            b.rows.map (fun r => cols.map (cellAt b.cols r)) }

/-- An entry of the result dictionary: a table, or the boolean stored under
`'Same'`. -/
inductive Entry where
  | table (t : DF)
  | flag (b : Bool)
deriving DecidableEq, Repr

/-- The Python result dictionary: insertion-ordered key/entry pairs. -/
abbrev Dict := List (String × Entry)

/-- Python dict assignment `d[k] = v`: overwrite in place when the key exists,
append otherwise. -/
def dictSet (d : Dict) (k : String) (v : Entry) : Dict :=
  if d.any (fun p => p.1 == k) then d.map (fun p => if p.1 == k then (k, v) else p)
  else d ++ [(k, v)]

/-- Read a table entry back from the dictionary, as the source's
`dict_temp['same_values']` accesses do; a missing key is the caught KeyError. -/
def getTable (d : Dict) (k : String) : Option DF :=
  match d.lookup k with
  | some (.table t) => some t
  | _ => none

/-- Line 165: `dict_temp['same_values'] = pd.merge(x.drop_duplicates(),
y.drop_duplicates(), how='inner')`; a MergeError is caught at line 166 and the
key stays absent. -/
def sameStep (x y : DF) (d : Dict) : Dict :=
  match mergeInner (dedupDF x) (dedupDF y) with
  | some sv => dictSet d "same_values" (.table sv)
  | none => d

/-- The residual table of lines 169-170: concat the original frame with the
`same_values` table, then drop every row value that occurs more than once. -/
def onlyDF (x sv : DF) : DF :=
  ⟨(concatDF x sv).cols, dropDupKeepFalse (concatDF x sv).rows⟩

/-- Lines 168-172: both residual assignments live in one try block; a missing
`same_values` key (KeyError) or a too-short `names` list (IndexError) aborts the
whole step before any assignment, caught at line 171. -/
def outlierStep (x y : DF) (names : List String) (d : Dict) : Dict :=
  match getTable d "same_values", names with
  | some sv, n0 :: n1 :: _ =>
      dictSet (dictSet d (n0 ++ "_not_" ++ n1) (.table (onlyDF x sv)))
        (n1 ++ "_not_" ++ n0) (.table (onlyDF y sv))
  | _, _ => d

/-- Lines 174-179: when `dups` is set, assign `names[0]+'_dups'` then
`names[1]+'_dups'`; a one-element `names` list raises IndexError after the first
assignment already happened, so that one survives. -/
def dupsStep (x y : DF) (names : List String) (dups : Bool) (d : Dict) : Dict :=
  if dups then
    match names with
    | [] => d
    | [n0] => dictSet d (n0 ++ "_dups") (.table ⟨x.cols, dupRows x.rows⟩)
    | n0 :: n1 :: _ =>
        dictSet (dictSet d (n0 ++ "_dups") (.table ⟨x.cols, dupRows x.rows⟩))
          (n1 ++ "_dups") (.table ⟨y.cols, dupRows y.rows⟩)
  else d

/-- Lines 180-187: when `same` is set, `dict_temp['Same']` records whether
`x.shape == y.shape` and `x.shape == same_values.shape`; a missing
`same_values` key is a KeyError caught at line 186, leaving `'Same'` absent. -/
def sameFlagStep (x y : DF) (sameFlag : Bool) (d : Dict) : Dict :=
  if sameFlag then
    match getTable d "same_values" with
    | some sv => dictSet d "Same" (.flag (decide (shape x = shape y ∧ shape x = shape sv)))
    | none => d
  else d

/-- Lines 189-205: the body reads `dict_comp['df1_not_df2']`, but `dict_comp`
is a name defined nowhere in the function or module (it survives from the
commented-out draft on lines 191-195), so the step raises NameError on every
execution; the bare except on line 204 catches it and no `highlight` key is
ever assigned. -/
def highlightStep (d : Dict) : Dict := d

/-- Lines 162-224, the body of `compare` after argument validation.  The
`comment` flag (lines 207-222) only prints and never changes the dictionary. -/
def compareCore (x y : DF) (names : List String)
    (dups sameFlag comment highlight : Bool) : Dict :=
  let d1 := sameStep x y []
  let d2 := outlierStep x y names d1
  let d3 := dupsStep x y names dups d2
  let d4 := sameFlagStep x y sameFlag d3
  let d5 := if highlight then highlightStep d4 else d4
  let _ := comment
  d5

/-- A Python object passed to `compare`: the argument types the validation
code distinguishes. -/
inductive PyObj where
  | df (d : DF)
  | list (l : List String)
  | bool (b : Bool)
  | int (n : Int)
  | str (s : String)
deriving DecidableEq, Repr

/-- Evaluating `if highlight == True:` (line 189), which sits outside every
try block.  `True` equals the booleans' truth and the integer 1; a string or a
list compares unequal to `True` without error; but for a DataFrame the
comparison `df == True` is element-wise and yields a DataFrame, whose use as an
`if` condition raises `ValueError` (ambiguous truth value) — and since line 189
is outside any try, that exception propagates out of `compare`. -/
def pyTrue : PyObj → Except String Bool
  | .bool b => .ok b
  | .int n => .ok (n == 1)
  | .str _ => .ok false
  | .list _ => .ok false
  | .df _ => .error "The truth value of a DataFrame is ambiguous. Use a.empty, a.bool(), a.item(), a.any() or a.all()."

/-- Lines 147-224: the full `compare` entry point.  Lines 147-160 validate the
argument types in order — x, y as DataFrame, names as list, dups, same, comment
as bool, raising ValueError before any computation — while the `highlight`
argument is never validated up front; the body then runs on the typed values.
When `highlight` is a DataFrame, the unguarded `if highlight == True:` test on
line 189 raises ValueError after the earlier steps have run; the exception
propagates, the partially built dictionary is discarded, and the caller sees
only the error — which the match on `pyTrue highlight` reproduces (the
discarded dictionary has no observable effect, so the outcome is identical). -/
def compare (x y names dups sameFlag comment highlight : PyObj) :
    Except String Dict :=
  match x with
  | .df xd =>
    match y with
    | .df yd =>
      match names with
      | .list nm =>
        match dups with
        | .bool db =>
          match sameFlag with
          | .bool sb =>
            match comment with
            | .bool cb =>
                match pyTrue highlight with
                | .ok hb => .ok (compareCore xd yd nm db sb cb hb)
                | .error e => .error e
            | _ => .error "Please input comment as a bool"
          | _ => .error "Please input same as a bool"
        | _ => .error "Please input dups as a bool"
      | _ => .error "Please input names as a list"
    | _ => .error "Please input y as a pandas.DataFrame"
  | _ => .error "Please input x as a pandas.DataFrame"

/-- Recognizer used to state the validation contract: is the object a frame? -/
def isDfB : PyObj → Bool
  | .df _ => true
  | _ => false

/-- Recognizer: is the object a Python list? -/
def isListB : PyObj → Bool
  | .list _ => true
  | _ => false

/-- Recognizer: is the object a Python bool? -/
def isBoolB : PyObj → Bool
  | .bool _ => true
  | _ => false

/-- Well-formedness of a frame: column names are distinct and every row has one
cell per column — the invariants a real pandas DataFrame maintains. -/
def WF (d : DF) : Prop :=
  d.cols.Nodup ∧ ∀ r ∈ d.rows, r.length = d.cols.length

instance (d : DF) : Decidable (WF d) := by unfold WF; infer_instance

theorem mem_dedupFirst : ∀ (l : List Row) (a : Row), a ∈ dedupFirst l ↔ a ∈ l := by
  intro l
  induction l with
  | nil => simp [dedupFirst]
  | cons r rs ih =>
    intro a
    simp only [dedupFirst, List.mem_cons, List.mem_filter, ih, decide_eq_true_eq]
    by_cases h : a = r <;> simp [h]

theorem nodup_dedupFirst : ∀ (l : List Row), (dedupFirst l).Nodup := by
  intro l
  induction l with
  | nil => simp [dedupFirst]
  | cons r rs ih =>
    simp only [dedupFirst, List.nodup_cons]
    refine ⟨fun hmem => ?_, ih.filter _⟩
    rw [List.mem_filter] at hmem
    simp at hmem

theorem dedupFirst_eq_self_of_nodup : ∀ (l : List Row), l.Nodup → dedupFirst l = l := by
  intro l
  induction l with
  | nil => simp [dedupFirst]
  | cons r rs ih =>
    intro hnd
    rw [List.nodup_cons] at hnd
    simp only [dedupFirst, ih hnd.2]
    congr 1
    rw [List.filter_eq_self]
    intro a ha
    simp only [decide_eq_true_eq]
    intro heq
    exact hnd.1 (heq ▸ ha)

theorem filter_mem_self {α : Type} [DecidableEq α] (l : List α) :
    l.filter (fun c => c ∈ l) = l := by
  rw [List.filter_eq_self]
  intro a ha
  simpa using ha

theorem filter_mem_self_rows (l : List Row) :
    l.filter (fun r => r ∈ l) = l := by
  rw [List.filter_eq_self]
  intro a ha
  simpa using ha

theorem filter_not_mem_self {α : Type} [DecidableEq α] (l : List α) :
    l.filter (fun c => ¬ c ∈ l) = [] := by
  rw [List.filter_eq_nil_iff]
  intro a ha
  simpa using ha

theorem cellAt_cons_self (c : String) (cs : List String) (v : Val) (vs : Row) :
    cellAt (c :: cs) (v :: vs) c = v := by
  simp [cellAt, List.lookup_cons]

theorem cellAt_cons_ne (c c' : String) (cs : List String) (v : Val) (vs : Row)
    (hne : c' ≠ c) : cellAt (c :: cs) (v :: vs) c' = cellAt cs vs c' := by
  simp [cellAt, List.lookup_cons, beq_eq_false_iff_ne.mpr hne]

theorem map_cellAt_self : ∀ (cols : List String) (r : Row), cols.Nodup →
    r.length = cols.length → cols.map (cellAt cols r) = r := by
  intro cols
  induction cols with
  | nil =>
    intro r _ hl
    rw [List.length_nil, List.length_eq_zero] at hl
    simp [hl]
  | cons c cs ih =>
    intro r hnd hl
    rw [List.nodup_cons] at hnd
    cases r with
    | nil => simp at hl
    | cons v vs =>
      simp only [List.length_cons, Nat.succ.injEq] at hl
      simp only [List.map_cons, cellAt_cons_self]
      congr 1
      have hcong : cs.map (cellAt (c :: cs) (v :: vs)) = cs.map (cellAt cs vs) := by
        apply List.map_congr_left
        intro a ha
        exact cellAt_cons_ne c a cs v vs (fun heq => hnd.1 (heq ▸ ha))
      rw [hcong, ih vs hnd.2 hl]

theorem agree_iff_eq (c : List String) (ra rb : Row) (hnd : c.Nodup)
    (hra : ra.length = c.length) (hrb : rb.length = c.length) :
    ((c.all fun col => cellAt c ra col == cellAt c rb col) = true) ↔ ra = rb := by
  rw [List.all_eq_true]
  simp only [beq_iff_eq]
  constructor
  · intro h
    calc ra = c.map (cellAt c ra) := (map_cellAt_self c ra hnd hra).symm
      _ = c.map (cellAt c rb) := List.map_congr_left h
      _ = rb := map_cellAt_self c rb hnd hrb
  · rintro rfl
    intro col _
    rfl

theorem mergeRow_eq_left (c : List String) (A B : List Row) (ra rb : Row)
    (hnd : c.Nodup) (hra : ra.length = c.length) :
    mergeRow ⟨c, A⟩ ⟨c, B⟩ ra rb = ra := by
  simp only [mergeRow, filter_not_mem_self, List.map_nil, List.append_nil]
  exact map_cellAt_self c ra hnd hra

theorem mergeInner_eq_cols (c : List String) (A B : List Row)
    (hne : c ≠ []) (hnd : c.Nodup)
    (hA : ∀ r ∈ A, r.length = c.length) (hB : ∀ r ∈ B, r.length = c.length)
    (hBnd : B.Nodup) :
    mergeInner ⟨c, A⟩ ⟨c, B⟩ = some ⟨c, A.filter (fun r => r ∈ B)⟩ := by
  have hcc : commonCols ⟨c, A⟩ ⟨c, B⟩ = c := by
    unfold commonCols
    exact filter_mem_self c
  have hinner : ∀ ra, ra.length = c.length → ∀ (L : List Row),
      (∀ r ∈ L, r.length = c.length) → L.Nodup →
      (L.filterMap (fun rb =>
        if (c.all fun col => cellAt c ra col == cellAt c rb col)
        then some (mergeRow ⟨c, A⟩ ⟨c, B⟩ ra rb) else none)) =
      if ra ∈ L then [ra] else [] := by
    intro ra hra L
    induction L with
    | nil => simp
    | cons rb L ihL =>
      intro hL hLnd
      rw [List.nodup_cons] at hLnd
      rw [List.filterMap_cons]
      by_cases hag : ra = rb
      · subst hag
        have hcond : (c.all fun col => cellAt c ra col == cellAt c ra col) = true :=
          (agree_iff_eq c ra ra hnd hra hra).mpr rfl
        have hnotin : ra ∉ L := hLnd.1
        rw [ihL (fun r hr => hL r (List.mem_cons_of_mem ra hr)) hLnd.2]
        simp [hcond, hnotin, mergeRow_eq_left c A B ra ra hnd hra]
      · have hcond : (c.all fun col => cellAt c ra col == cellAt c rb col) = false := by
          rw [Bool.eq_false_iff]
          intro hc
          exact hag ((agree_iff_eq c ra rb hnd hra (hL rb (List.mem_cons_self rb L))).mp hc)
        rw [hcond]
        rw [ihL (fun r hr => hL r (List.mem_cons_of_mem rb hr)) hLnd.2]
        simp [List.mem_cons, hag]
  have hcols : c.filter (fun x => ¬ x ∈ c) = [] := filter_not_mem_self c
  have hrows : ∀ (L : List Row), (∀ r ∈ L, r.length = c.length) →
      (L.flatMap (fun ra =>
        B.filterMap (fun rb =>
          if (c.all fun col => cellAt c ra col == cellAt c rb col)
          then some (mergeRow ⟨c, A⟩ ⟨c, B⟩ ra rb) else none))) =
      L.filter (fun r => r ∈ B) := by
    intro L
    induction L with
    | nil => simp
    | cons ra L ihL =>
      intro hL
      rw [List.flatMap_cons, hinner ra (hL ra (List.mem_cons_self ra L)) B hB hBnd,
        ihL (fun r hr => hL r (List.mem_cons_of_mem ra hr))]
      by_cases hmem : ra ∈ B <;> simp [hmem]
  unfold mergeInner
  rw [hcc, if_neg hne, hcols, List.append_nil, hrows A hA]

theorem concatDF_eq_cols (c : List String) (A B : List Row) (hnd : c.Nodup)
    (hA : ∀ r ∈ A, r.length = c.length) (hB : ∀ r ∈ B, r.length = c.length) :
    concatDF ⟨c, A⟩ ⟨c, B⟩ = ⟨c, A ++ B⟩ := by
  have hid : ∀ (L : List Row), (∀ r ∈ L, r.length = c.length) →
      L.map (fun r => c.map (cellAt c r)) = L := by
    intro L hL
    have : L.map (fun r => c.map (cellAt c r)) = L.map id :=
      List.map_congr_left (fun r hr => map_cellAt_self c r hnd (hL r hr))
    rw [this, List.map_id]
  simp only [concatDF, filter_not_mem_self, List.append_nil]
  rw [hid A hA, hid B hB]

theorem count_le_one_of_nodup {α : Type} [BEq α] [LawfulBEq α]
    (l : List α) (h : l.Nodup) (a : α) : l.count a ≤ 1 := by
  induction l with
  | nil => rw [List.count_nil]; omega
  | cons b l ih =>
    rw [List.nodup_cons] at h
    by_cases hab : a = b
    · subst hab
      have h0 : l.count a = 0 := List.count_eq_zero.mpr h.1
      simp [List.count_cons, h0]
    · have hbe : (b == a) = false := beq_eq_false_iff_ne.mpr (fun hba => hab hba.symm)
      simpa [List.count_cons, hbe] using ih h.2

theorem dropDupKeepFalse_append (L S : List Row) (hS : S.Nodup)
    (hSL : ∀ r ∈ S, r ∈ L) :
    dropDupKeepFalse (L ++ S) =
      L.filter (fun r => decide (L.count r = 1 ∧ ¬ r ∈ S)) := by
  unfold dropDupKeepFalse
  rw [List.filter_append]
  have hSpart : S.filter (fun r => (L ++ S).count r == 1) = [] := by
    rw [List.filter_eq_nil_iff]
    intro r hr
    simp only [List.count_append, beq_iff_eq]
    have h1 : 0 < L.count r := List.count_pos_iff.mpr (hSL r hr)
    have h2 : 0 < S.count r := List.count_pos_iff.mpr hr
    omega
  rw [hSpart, List.append_nil]
  apply List.filter_congr
  intro r hrL
  rw [Bool.eq_iff_iff]
  simp only [beq_iff_eq, decide_eq_true_eq, List.count_append]
  by_cases hrS : r ∈ S
  · have h2 : 0 < S.count r := List.count_pos_iff.mpr hrS
    have h2' : S.count r ≤ 1 := count_le_one_of_nodup S hS r
    have h1 : 0 < L.count r := List.count_pos_iff.mpr hrL
    constructor
    · intro h
      omega
    · rintro ⟨-, habs⟩
      exact absurd hrS habs
  · have h2 : S.count r = 0 := List.count_eq_zero.mpr hrS
    constructor
    · intro h
      exact ⟨by omega, hrS⟩
    · rintro ⟨h, -⟩
      omega

theorem compareCore_some_spec (x y : DF) (dups sameFlag comment hl : Bool) (sv : DF)
    (h : mergeInner (dedupDF x) (dedupDF y) = some sv) :
    compareCore x y ["x", "y"] dups sameFlag comment hl =
      [("same_values", .table sv), ("x_not_y", .table (onlyDF x sv)),
        ("y_not_x", .table (onlyDF y sv))] ++
      (if dups then
        [("x_dups", .table ⟨x.cols, dupRows x.rows⟩),
          ("y_dups", .table ⟨y.cols, dupRows y.rows⟩)]
      else []) ++
      (if sameFlag then
        [("Same", .flag (decide (shape x = shape y ∧ shape x = shape sv)))]
      else []) := by
  cases dups <;> cases sameFlag <;> cases hl <;>
    simp [compareCore, sameStep, outlierStep, dupsStep, sameFlagStep, highlightStep,
      h, dictSet, getTable, List.lookup]

theorem compareCore_none_spec (x y : DF) (dups sameFlag comment hl : Bool)
    (h : mergeInner (dedupDF x) (dedupDF y) = none) :
    compareCore x y ["x", "y"] dups sameFlag comment hl =
      (if dups then
        [("x_dups", .table ⟨x.cols, dupRows x.rows⟩),
          ("y_dups", .table ⟨y.cols, dupRows y.rows⟩)]
      else []) := by
  cases dups <;> cases sameFlag <;> cases hl <;>
    simp [compareCore, sameStep, outlierStep, dupsStep, sameFlagStep, highlightStep,
      h, dictSet, getTable, List.lookup]

theorem compare_tables (c : List String) (A B : List Row)
    (hne : c ≠ []) (hnd : c.Nodup)
    (hA : ∀ r ∈ A, r.length = c.length) (hB : ∀ r ∈ B, r.length = c.length) :
    mergeInner (dedupDF ⟨c, A⟩) (dedupDF ⟨c, B⟩) =
      some ⟨c, (dedupFirst A).filter (fun r => r ∈ dedupFirst B)⟩ ∧
    onlyDF ⟨c, A⟩ ⟨c, (dedupFirst A).filter (fun r => r ∈ dedupFirst B)⟩ =
      ⟨c, A.filter (fun r => decide (A.count r = 1 ∧ ¬ r ∈ B))⟩ ∧
    onlyDF ⟨c, B⟩ ⟨c, (dedupFirst A).filter (fun r => r ∈ dedupFirst B)⟩ =
      ⟨c, B.filter (fun r => decide (B.count r = 1 ∧ ¬ r ∈ A))⟩ := by
  have hA' : ∀ r ∈ dedupFirst A, r.length = c.length :=
    fun r hr => hA r ((mem_dedupFirst A r).mp hr)
  have hB' : ∀ r ∈ dedupFirst B, r.length = c.length :=
    fun r hr => hB r ((mem_dedupFirst B r).mp hr)
  have hSmem : ∀ r, r ∈ (dedupFirst A).filter (fun r => r ∈ dedupFirst B) ↔
      (r ∈ A ∧ r ∈ B) := by
    intro r
    rw [List.mem_filter]
    simp only [decide_eq_true_eq, mem_dedupFirst]
  have hSnodup : ((dedupFirst A).filter (fun r => r ∈ dedupFirst B)).Nodup :=
    (nodup_dedupFirst A).filter _
  have hSwf : ∀ r ∈ (dedupFirst A).filter (fun r => r ∈ dedupFirst B),
      r.length = c.length := fun r hr => hA r ((hSmem r).mp hr).1
  refine ⟨?_, ?_, ?_⟩
  · exact mergeInner_eq_cols c (dedupFirst A) (dedupFirst B) hne hnd hA' hB'
      (nodup_dedupFirst B)
  · unfold onlyDF
    rw [concatDF_eq_cols c A _ hnd hA hSwf]
    rw [dropDupKeepFalse_append A _ hSnodup (fun r hr => ((hSmem r).mp hr).1)]
    congr 1
    apply List.filter_congr
    intro r hrA
    rw [Bool.eq_iff_iff]
    simp only [decide_eq_true_eq, hSmem, hrA, true_and]
  · unfold onlyDF
    rw [concatDF_eq_cols c B _ hnd hB hSwf]
    rw [dropDupKeepFalse_append B _ hSnodup (fun r hr => ((hSmem r).mp hr).2)]
    congr 1
    apply List.filter_congr
    intro r hrB
    rw [Bool.eq_iff_iff]
    simp only [decide_eq_true_eq, hSmem, hrB, and_true]

/-- C1: the claim says the highlight step renders equal cells as the sentinel
and unequal cells as left/right pairs, with highlight row {id: "-", v: "b/c"}
for the claim's example tables.  The code cannot produce any highlight table:
lines 197-198 read the undefined name `dict_comp` (and the hardcoded keys
`df1_not_df2`), so the step raises NameError on every call, the bare except
swallows it, and the returned dictionary has no `highlight` entry — shown here
at the claim's own example input. -/
theorem C1_highlight_entry_absent :
    (compareCore ⟨["id", "v"], [[.intV 1, .strV "a"], [.intV 2, .strV "b"]]⟩
        ⟨["id", "v"], [[.intV 1, .strV "a"], [.intV 2, .strV "c"]]⟩
        ["x", "y"] false false false true).lookup "highlight" = none := by
  decide

/-- C2 counterexample: for A = [{x:1},{x:1}] and B = [{x:2}] the `same` table
and `onlyInFirst` are both empty — the duplicated row {x:1} is dropped entirely
by drop_duplicates(keep=False) — yet {x:1} is in the deduplicated A, so
`same` ∪ `onlyInFirst` (deduplicated) is not the deduplicated first input. -/
theorem C2_counterexample :
    getTable (compareCore ⟨["x"], [[.intV 1], [.intV 1]]⟩ ⟨["x"], [[.intV 2]]⟩
        ["x", "y"] false false false true) "same_values" = some ⟨["x"], []⟩ ∧
    getTable (compareCore ⟨["x"], [[.intV 1], [.intV 1]]⟩ ⟨["x"], [[.intV 2]]⟩
        ["x", "y"] false false false true) "x_not_y" = some ⟨["x"], []⟩ ∧
    [Val.intV 1] ∈ (dedupDF ⟨["x"], [[.intV 1], [.intV 1]]⟩).rows := by
  decide

/-- C2 (amended): for well-formed inputs with identical, nonempty columns, and
provided every row occurring more than once in one input also occurs in the
other, `same` ∪ `onlyInFirst` (deduplicated) equals the deduplicated first
input as a row set, and symmetrically for the second input. -/
theorem C2_union_is_dedup_input (x y : DF)
    (hc : x.cols = y.cols) (hne : x.cols ≠ []) (hwx : WF x) (hwy : WF y)
    (hdx : ∀ r ∈ x.rows, 1 < x.rows.count r → r ∈ y.rows)
    (hdy : ∀ r ∈ y.rows, 1 < y.rows.count r → r ∈ x.rows) :
    ∃ sv oF oS,
      getTable (compareCore x y ["x", "y"] false false false true)
        "same_values" = some sv ∧
      getTable (compareCore x y ["x", "y"] false false false true)
        "x_not_y" = some oF ∧
      getTable (compareCore x y ["x", "y"] false false false true)
        "y_not_x" = some oS ∧
      (∀ r, r ∈ dedupFirst (sv.rows ++ oF.rows) ↔ r ∈ dedupFirst x.rows) ∧
      (∀ r, r ∈ dedupFirst (sv.rows ++ oS.rows) ↔ r ∈ dedupFirst y.rows) := by
  obtain ⟨c, A⟩ := x
  obtain ⟨c2, B⟩ := y
  simp only [DF.cols] at hc hne
  subst hc
  have htab := compare_tables c A B hne hwx.1 hwx.2 hwy.2
  have hspec := compareCore_some_spec ⟨c, A⟩ ⟨c, B⟩ false false false true _ htab.1
  rw [htab.2.1, htab.2.2] at hspec
  refine ⟨⟨c, (dedupFirst A).filter (fun r => r ∈ dedupFirst B)⟩,
    ⟨c, A.filter (fun r => decide (A.count r = 1 ∧ ¬ r ∈ B))⟩,
    ⟨c, B.filter (fun r => decide (B.count r = 1 ∧ ¬ r ∈ A))⟩, ?_, ?_, ?_, ?_, ?_⟩
  · rw [hspec]; simp [getTable, List.lookup]
  · rw [hspec]; simp [getTable, List.lookup]
  · rw [hspec]; simp [getTable, List.lookup]
  · intro r
    rw [mem_dedupFirst, mem_dedupFirst, List.mem_append, List.mem_filter,
      List.mem_filter]
    simp only [decide_eq_true_eq, mem_dedupFirst]
    constructor
    · rintro (⟨hrA, -⟩ | ⟨hrA, -⟩) <;> exact hrA
    · intro hrA
      by_cases hrB : r ∈ B
      · exact Or.inl ⟨hrA, hrB⟩
      · refine Or.inr ⟨hrA, ?_, hrB⟩
        have hpos : 0 < A.count r := List.count_pos_iff.mpr hrA
        have hnot : ¬ 1 < A.count r := fun hgt => hrB (hdx r hrA hgt)
        omega
  · intro r
    rw [mem_dedupFirst, mem_dedupFirst, List.mem_append, List.mem_filter,
      List.mem_filter]
    simp only [decide_eq_true_eq, mem_dedupFirst]
    constructor
    · rintro (⟨-, hrB⟩ | ⟨hrB, -⟩) <;> exact hrB
    · intro hrB
      by_cases hrA : r ∈ A
      · exact Or.inl ⟨hrA, hrB⟩
      · refine Or.inr ⟨hrB, ?_, hrA⟩
        have hpos : 0 < B.count r := List.count_pos_iff.mpr hrB
        have hnot : ¬ 1 < B.count r := fun hgt => hrA (hdy r hrB hgt)
        omega

/-- C2 witness: the amended statement holds at A = [{x:1},{x:2}],
B = [{x:2},{x:3}]. -/
theorem C2_witness :
    ((⟨["x"], [[.intV 1], [.intV 2]]⟩ : DF).cols =
      (⟨["x"], [[.intV 2], [.intV 3]]⟩ : DF).cols) ∧
    ((⟨["x"], [[.intV 1], [.intV 2]]⟩ : DF).cols ≠ []) ∧
    WF ⟨["x"], [[.intV 1], [.intV 2]]⟩ ∧
    WF ⟨["x"], [[.intV 2], [.intV 3]]⟩ ∧
    (∀ r ∈ ([[.intV 1], [.intV 2]] : List Row),
      1 < ([[.intV 1], [.intV 2]] : List Row).count r →
      r ∈ ([[.intV 2], [.intV 3]] : List Row)) ∧
    (∀ r ∈ ([[.intV 2], [.intV 3]] : List Row),
      1 < ([[.intV 2], [.intV 3]] : List Row).count r →
      r ∈ ([[.intV 1], [.intV 2]] : List Row)) ∧
    (∃ sv oF oS,
      getTable (compareCore ⟨["x"], [[.intV 1], [.intV 2]]⟩
        ⟨["x"], [[.intV 2], [.intV 3]]⟩ ["x", "y"] false false false true)
        "same_values" = some sv ∧
      getTable (compareCore ⟨["x"], [[.intV 1], [.intV 2]]⟩
        ⟨["x"], [[.intV 2], [.intV 3]]⟩ ["x", "y"] false false false true)
        "x_not_y" = some oF ∧
      getTable (compareCore ⟨["x"], [[.intV 1], [.intV 2]]⟩
        ⟨["x"], [[.intV 2], [.intV 3]]⟩ ["x", "y"] false false false true)
        "y_not_x" = some oS ∧
      (∀ r, r ∈ dedupFirst (sv.rows ++ oF.rows) ↔
        r ∈ dedupFirst ([[.intV 1], [.intV 2]] : List Row)) ∧
      (∀ r, r ∈ dedupFirst (sv.rows ++ oS.rows) ↔
        r ∈ dedupFirst ([[.intV 2], [.intV 3]] : List Row))) :=
  ⟨by decide, by decide, by decide, by decide, by decide, by decide,
    C2_union_is_dedup_input _ _ (by decide) (by decide) (by decide) (by decide)
      (by decide) (by decide)⟩

/-- C3 counterexample: for A = [{x:1},{x:1}] and B = [{x:1}], the row {x:1}
appears twice in A and once in the `same` table, yet `onlyInFirst` is empty —
the claim's accounting says it should contribute exactly one residual row. -/
theorem C3_counterexample :
    (⟨["x"], [[.intV 1], [.intV 1]]⟩ : DF).rows.count [Val.intV 1] = 2 ∧
    getTable (compareCore ⟨["x"], [[.intV 1], [.intV 1]]⟩ ⟨["x"], [[.intV 1]]⟩
        ["x", "y"] false false false true) "same_values" =
      some ⟨["x"], [[.intV 1]]⟩ ∧
    getTable (compareCore ⟨["x"], [[.intV 1], [.intV 1]]⟩ ⟨["x"], [[.intV 1]]⟩
        ["x", "y"] false false false true) "x_not_y" = some ⟨["x"], []⟩ := by
  decide

/-- C3 (amended): for well-formed inputs with identical, nonempty columns,
`onlyInFirst` consists exactly of the rows of the original A that occur exactly
once in A and whose value does not occur in B (equivalently, not in `same`);
rows occurring more than once in A contribute no residual row at all, because
drop_duplicates(keep=False) deletes every copy.  Symmetric for `onlyInSecond`. -/
theorem C3_residual_characterization (x y : DF)
    (hc : x.cols = y.cols) (hne : x.cols ≠ []) (hwx : WF x) (hwy : WF y) :
    ∃ sv,
      getTable (compareCore x y ["x", "y"] false false false true)
        "same_values" = some sv ∧
      getTable (compareCore x y ["x", "y"] false false false true)
        "x_not_y" = some ⟨x.cols,
          x.rows.filter (fun r => decide (x.rows.count r = 1 ∧ ¬ r ∈ y.rows))⟩ ∧
      getTable (compareCore x y ["x", "y"] false false false true)
        "y_not_x" = some ⟨y.cols,
          y.rows.filter (fun r => decide (y.rows.count r = 1 ∧ ¬ r ∈ x.rows))⟩ := by
  obtain ⟨c, A⟩ := x
  obtain ⟨c2, B⟩ := y
  simp only [DF.cols] at hc hne
  subst hc
  have htab := compare_tables c A B hne hwx.1 hwx.2 hwy.2
  have hspec := compareCore_some_spec ⟨c, A⟩ ⟨c, B⟩ false false false true _ htab.1
  rw [htab.2.1, htab.2.2] at hspec
  refine ⟨⟨c, (dedupFirst A).filter (fun r => r ∈ dedupFirst B)⟩, ?_, ?_, ?_⟩ <;>
    (rw [hspec]; simp [getTable, List.lookup, DF.cols, DF.rows])

/-- C3 witness: the amended characterization at A = [{x:1}], B = [{x:2}]. -/
theorem C3_witness :
    ((⟨["x"], [[.intV 1]]⟩ : DF).cols = (⟨["x"], [[.intV 2]]⟩ : DF).cols) ∧
    ((⟨["x"], [[.intV 1]]⟩ : DF).cols ≠ []) ∧
    WF ⟨["x"], [[.intV 1]]⟩ ∧ WF ⟨["x"], [[.intV 2]]⟩ ∧
    (∃ sv,
      getTable (compareCore ⟨["x"], [[.intV 1]]⟩ ⟨["x"], [[.intV 2]]⟩
        ["x", "y"] false false false true) "same_values" = some sv ∧
      getTable (compareCore ⟨["x"], [[.intV 1]]⟩ ⟨["x"], [[.intV 2]]⟩
        ["x", "y"] false false false true) "x_not_y" =
        some ⟨(⟨["x"], [[.intV 1]]⟩ : DF).cols,
          (⟨["x"], [[.intV 1]]⟩ : DF).rows.filter (fun r =>
            decide ((⟨["x"], [[.intV 1]]⟩ : DF).rows.count r = 1 ∧
              ¬ r ∈ (⟨["x"], [[.intV 2]]⟩ : DF).rows))⟩ ∧
      getTable (compareCore ⟨["x"], [[.intV 1]]⟩ ⟨["x"], [[.intV 2]]⟩
        ["x", "y"] false false false true) "y_not_x" =
        some ⟨(⟨["x"], [[.intV 2]]⟩ : DF).cols,
          (⟨["x"], [[.intV 2]]⟩ : DF).rows.filter (fun r =>
            decide ((⟨["x"], [[.intV 2]]⟩ : DF).rows.count r = 1 ∧
              ¬ r ∈ (⟨["x"], [[.intV 1]]⟩ : DF).rows))⟩) :=
  ⟨by decide, by decide, by decide, by decide,
    C3_residual_characterization _ _ (by decide) (by decide) (by decide) (by decide)⟩

/-- C4 counterexample: for A = [{x:1},{x:1}] (a duplicated row),
compare(A, A) with the equality flag reports `Same = False`, because A's shape
(2 rows) differs from the deduplicated `same` table's shape (1 row) — the claim
asserts `tablesEqual = true` for every table A. -/
theorem C4_counterexample :
    (compareCore ⟨["x"], [[.intV 1], [.intV 1]]⟩ ⟨["x"], [[.intV 1], [.intV 1]]⟩
        ["x", "y"] false true false true).lookup "Same" =
      some (.flag false) := by
  decide

/-- C4 (amended): for every well-formed table A with nonempty columns and no
duplicate rows, compare(A, A) with the equality flag yields `Same = True`,
empty `onlyInFirst` and `onlyInSecond`, and a `same` table equal to A (its own
deduplication); when A has duplicate rows the `same` table is the strictly
smaller deduplication, so the shape test fails and `Same` is False. -/
theorem C4_self_compare (x : DF) (hne : x.cols ≠ []) (hwf : WF x)
    (hnr : x.rows.Nodup) :
    getTable (compareCore x x ["x", "y"] false true false true)
      "same_values" = some ⟨x.cols, x.rows⟩ ∧
    getTable (compareCore x x ["x", "y"] false true false true)
      "x_not_y" = some ⟨x.cols, []⟩ ∧
    getTable (compareCore x x ["x", "y"] false true false true)
      "y_not_x" = some ⟨x.cols, []⟩ ∧
    (compareCore x x ["x", "y"] false true false true).lookup "Same" =
      some (.flag true) := by
  obtain ⟨c, A⟩ := x
  simp only [DF.cols] at hne
  simp only [DF.rows] at hnr
  have htab := compare_tables c A A hne hwf.1 hwf.2 hwf.2
  have hded : dedupFirst A = A := dedupFirst_eq_self_of_nodup A hnr
  have hS : (dedupFirst A).filter (fun r => r ∈ dedupFirst A) = A := by
    rw [hded]; exact filter_mem_self_rows A
  have hres : A.filter (fun r => decide (A.count r = 1 ∧ ¬ r ∈ A)) = [] := by
    rw [List.filter_eq_nil_iff]
    intro r hr
    simp [hr]
  rw [hS] at htab
  have hspec := compareCore_some_spec ⟨c, A⟩ ⟨c, A⟩ false true false true _ htab.1
  rw [htab.2.1, hres] at hspec
  have hflag : decide (shape ⟨c, A⟩ = shape ⟨c, A⟩ ∧
      shape ⟨c, A⟩ = shape (⟨c, A⟩ : DF)) = true := by simp
  rw [hflag] at hspec
  rw [hspec]
  refine ⟨?_, ?_, ?_, ?_⟩ <;> simp [getTable, List.lookup]

/-- C4 witness: the amended statement at the duplicate-free table
A = [{x:1},{x:2}]. -/
theorem C4_witness :
    ((⟨["x"], [[.intV 1], [.intV 2]]⟩ : DF).cols ≠ []) ∧
    WF ⟨["x"], [[.intV 1], [.intV 2]]⟩ ∧
    (⟨["x"], [[.intV 1], [.intV 2]]⟩ : DF).rows.Nodup ∧
    (getTable (compareCore ⟨["x"], [[.intV 1], [.intV 2]]⟩
        ⟨["x"], [[.intV 1], [.intV 2]]⟩ ["x", "y"] false true false true)
      "same_values" = some ⟨["x"], [[.intV 1], [.intV 2]]⟩ ∧
    getTable (compareCore ⟨["x"], [[.intV 1], [.intV 2]]⟩
        ⟨["x"], [[.intV 1], [.intV 2]]⟩ ["x", "y"] false true false true)
      "x_not_y" = some ⟨["x"], []⟩ ∧
    getTable (compareCore ⟨["x"], [[.intV 1], [.intV 2]]⟩
        ⟨["x"], [[.intV 1], [.intV 2]]⟩ ["x", "y"] false true false true)
      "y_not_x" = some ⟨["x"], []⟩ ∧
    (compareCore ⟨["x"], [[.intV 1], [.intV 2]]⟩
        ⟨["x"], [[.intV 1], [.intV 2]]⟩ ["x", "y"] false true false true).lookup
      "Same" = some (.flag true)) :=
  ⟨by decide, by decide, by decide,
    C4_self_compare _ (by decide) (by decide) (by decide)⟩

/-- C5: with the equality flag enabled and the `same` table computed, the
`Same` entry is True exactly when x's shape, y's shape and the `same` table's
shape all coincide — the code performs a pure shape comparison
(lines 182-185). -/
theorem C5_same_iff_shapes (x y : DF) (dups comment hl : Bool) (sv : DF)
    (h : getTable (compareCore x y ["x", "y"] dups true comment hl)
      "same_values" = some sv) :
    ((compareCore x y ["x", "y"] dups true comment hl).lookup "Same" =
        some (.flag true) ↔
      (shape x = shape y ∧ shape x = shape sv)) := by
  cases hm : mergeInner (dedupDF x) (dedupDF y) with
  | none =>
    have hspec := compareCore_none_spec x y dups true comment hl hm
    rw [hspec] at h
    cases dups <;> simp [getTable, List.lookup] at h
  | some sv' =>
    have hspec := compareCore_some_spec x y dups true comment hl sv' hm
    rw [hspec] at h
    have hsv : sv' = sv := by
      cases dups <;> simpa [getTable, List.lookup] using h
    subst hsv
    rw [hspec]
    cases dups <;> simp [List.lookup]

/-- C5 witness: at A = B = [{x:1}] the `Same` entry is True and the three
shapes coincide. -/
theorem C5_witness :
    (getTable (compareCore ⟨["x"], [[.intV 1]]⟩ ⟨["x"], [[.intV 1]]⟩
      ["x", "y"] false true false true) "same_values" =
        some ⟨["x"], [[.intV 1]]⟩) ∧
    ((compareCore ⟨["x"], [[.intV 1]]⟩ ⟨["x"], [[.intV 1]]⟩
        ["x", "y"] false true false true).lookup "Same" = some (.flag true) ↔
      (shape ⟨["x"], [[.intV 1]]⟩ = shape ⟨["x"], [[.intV 1]]⟩ ∧
        shape ⟨["x"], [[.intV 1]]⟩ = shape ⟨["x"], [[.intV 1]]⟩)) :=
  ⟨by decide, C5_same_iff_shapes _ _ false false true _ (by decide)⟩

/-- C6: each computation step fails independently and later steps still run:
when the join step fails (no common column, so pandas merge raises and the
bare except swallows it), the `same_values`, residual and `Same` entries are
all absent from the returned dictionary, the always-failing highlight entry is
absent, and yet the duplicate-detection step still executes and produces both
`_dups` tables; the function still returns the partial dictionary. -/
theorem C6_step_independence (x y : DF) (h : commonCols x y = []) :
    (compareCore x y ["x", "y"] true true true true).lookup "same_values" =
      none ∧
    (compareCore x y ["x", "y"] true true true true).lookup "x_not_y" = none ∧
    (compareCore x y ["x", "y"] true true true true).lookup "y_not_x" = none ∧
    (compareCore x y ["x", "y"] true true true true).lookup "Same" = none ∧
    (compareCore x y ["x", "y"] true true true true).lookup "highlight" =
      none ∧
    (compareCore x y ["x", "y"] true true true true).lookup "x_dups" =
      some (.table ⟨x.cols, dupRows x.rows⟩) ∧
    (compareCore x y ["x", "y"] true true true true).lookup "y_dups" =
      some (.table ⟨y.cols, dupRows y.rows⟩) := by
  have hm : mergeInner (dedupDF x) (dedupDF y) = none := by
    unfold mergeInner
    rw [if_pos (show commonCols (dedupDF x) (dedupDF y) = [] from h)]
  have hspec := compareCore_none_spec x y true true true true hm
  rw [hspec]
  simp [List.lookup]

/-- C6 witness: at A = [{a:1},{a:1}] and B = [{b:2}] (disjoint columns) the
join fails while both duplicate tables are still produced. -/
theorem C6_witness :
    commonCols ⟨["a"], [[.intV 1], [.intV 1]]⟩ ⟨["b"], [[.intV 2]]⟩ = [] ∧
    ((compareCore ⟨["a"], [[.intV 1], [.intV 1]]⟩ ⟨["b"], [[.intV 2]]⟩
        ["x", "y"] true true true true).lookup "same_values" = none ∧
      (compareCore ⟨["a"], [[.intV 1], [.intV 1]]⟩ ⟨["b"], [[.intV 2]]⟩
        ["x", "y"] true true true true).lookup "x_not_y" = none ∧
      (compareCore ⟨["a"], [[.intV 1], [.intV 1]]⟩ ⟨["b"], [[.intV 2]]⟩
        ["x", "y"] true true true true).lookup "y_not_x" = none ∧
      (compareCore ⟨["a"], [[.intV 1], [.intV 1]]⟩ ⟨["b"], [[.intV 2]]⟩
        ["x", "y"] true true true true).lookup "Same" = none ∧
      (compareCore ⟨["a"], [[.intV 1], [.intV 1]]⟩ ⟨["b"], [[.intV 2]]⟩
        ["x", "y"] true true true true).lookup "highlight" = none ∧
      (compareCore ⟨["a"], [[.intV 1], [.intV 1]]⟩ ⟨["b"], [[.intV 2]]⟩
        ["x", "y"] true true true true).lookup "x_dups" =
        some (.table ⟨(⟨["a"], [[.intV 1], [.intV 1]]⟩ : DF).cols,
          dupRows (⟨["a"], [[.intV 1], [.intV 1]]⟩ : DF).rows⟩) ∧
      (compareCore ⟨["a"], [[.intV 1], [.intV 1]]⟩ ⟨["b"], [[.intV 2]]⟩
        ["x", "y"] true true true true).lookup "y_dups" =
        some (.table ⟨(⟨["b"], [[.intV 2]]⟩ : DF).cols,
          dupRows (⟨["b"], [[.intV 2]]⟩ : DF).rows⟩)) :=
  ⟨by decide, C6_step_independence _ _ (by decide)⟩

/-- C7 counterexample: the claim says every wrongly-typed argument raises
ValueError, but the `highlight` flag is never validated: passing the integer
42 as `highlight` (a non-boolean option flag) does not raise — the call
completes and returns a result. -/
theorem C7_counterexample :
    isBoolB (.int 42) = false ∧
    (compare (.df ⟨["x"], [[.intV 1]]⟩) (.df ⟨["x"], [[.intV 1]]⟩)
      (.list ["x", "y"]) (.bool false) (.bool false) (.bool false)
      (.int 42)).isOk = true := by
  decide

/-- C7 (amended): compare succeeds exactly when x and y are DataFrames, names
is a list, dups, same and comment are booleans — validated in order at lines
147-160, raising ValueError before any computation — and highlight is not a
DataFrame.  The highlight flag is exempt from the up-front validation: an
integer, string or list highlight proceeds without error (so the claim's
fail-fast guarantee is false for it), while a DataFrame-valued highlight does
raise ValueError, but only at the unguarded `if highlight == True` test of
line 189, after the comparison steps have already run — not fail-fast. -/
theorem C7_validation_contract
    (x y names dups sameFlag comment highlight : PyObj) :
    (compare x y names dups sameFlag comment highlight).isOk =
      (isDfB x && isDfB y && isListB names && isBoolB dups &&
        isBoolB sameFlag && isBoolB comment && !(isDfB highlight)) := by
  cases x <;> cases y <;> cases names <;> cases dups <;> cases sameFlag <;>
    cases comment <;> first | rfl | (cases highlight <;> rfl)

/-- C8 counterexample: the claim says mismatched schemas degrade to an empty
`same` result, but with partially overlapping columns (A has id,v; B has id,w)
pandas merges on the common column `id` and `same` is non-empty. -/
theorem C8_counterexample :
    ∃ sv, getTable (compareCore ⟨["id", "v"], [[.intV 1, .strV "a"]]⟩
        ⟨["id", "w"], [[.intV 1, .strV "x"]]⟩ ["x", "y"] false false false true)
      "same_values" = some sv ∧ sv.rows ≠ [] :=
  ⟨⟨["id", "v", "w"], [[.intV 1, .strV "a", .strV "x"]]⟩, by decide, by decide⟩

/-- C8 (amended): a schema mismatch never makes compare raise.  With no common
column the merge step fails internally (pandas MergeError, swallowed by the
bare except) and the call still returns normally, with the `same_values` entry
absent — not empty — and the residual entries absent too; with partially
overlapping columns `same` is the inner join on the common columns and can be
non-empty (see the counterexample). -/
theorem C8_schema_mismatch_nonfatal (x y : DF) (h : commonCols x y = []) :
    ∃ d, compare (.df x) (.df y) (.list ["x", "y"]) (.bool false) (.bool false)
        (.bool false) (.bool true) = .ok d ∧
      d.lookup "same_values" = none ∧ d.lookup "x_not_y" = none ∧
      d.lookup "y_not_x" = none := by
  have hm : mergeInner (dedupDF x) (dedupDF y) = none := by
    unfold mergeInner
    rw [if_pos (show commonCols (dedupDF x) (dedupDF y) = [] from h)]
  have hspec := compareCore_none_spec x y false false false true hm
  refine ⟨compareCore x y ["x", "y"] false false false true, rfl, ?_, ?_, ?_⟩ <;>
    rw [hspec] <;> rfl

/-- C8 witness: at A = [{a:1}] and B = [{b:2}] (no common column) the call
returns normally with the `same_values` entry absent. -/
theorem C8_witness :
    commonCols ⟨["a"], [[.intV 1]]⟩ ⟨["b"], [[.intV 2]]⟩ = [] ∧
    (∃ d, compare (.df ⟨["a"], [[.intV 1]]⟩) (.df ⟨["b"], [[.intV 2]]⟩)
        (.list ["x", "y"]) (.bool false) (.bool false) (.bool false)
        (.bool true) = .ok d ∧
      d.lookup "same_values" = none ∧ d.lookup "x_not_y" = none ∧
      d.lookup "y_not_x" = none) :=
  ⟨by decide, C8_schema_mismatch_nonfatal _ _ (by decide)⟩

/-- C10: with equal display names (names = ['df2','df2'], as in the function's
own docstring example) the two residual keys coincide, so the second
assignment overwrites the first: the returned dictionary holds exactly one
residual table — the rows of the second input not in `same` — and likewise one
`_dups` table (the second input's). -/
theorem C10_duplicate_names_overwrite (x y : DF) (sv : DF)
    (h : mergeInner (dedupDF x) (dedupDF y) = some sv) :
    compareCore x y ["df2", "df2"] true true true true =
      [("same_values", .table sv), ("df2_not_df2", .table (onlyDF y sv)),
        ("df2_dups", .table ⟨y.cols, dupRows y.rows⟩),
        ("Same", .flag (decide (shape x = shape y ∧ shape x = shape sv)))] := by
  simp [compareCore, sameStep, outlierStep, dupsStep, sameFlagStep,
    highlightStep, h, dictSet, getTable, List.lookup]

/-- C10 witness: at A = [{id:1},{id:2}], B = [{id:1},{id:3}] with
names = ['df2','df2'] the dictionary holds a single residual table, B's. -/
theorem C10_witness :
    mergeInner (dedupDF ⟨["id"], [[.intV 1], [.intV 2]]⟩)
        (dedupDF ⟨["id"], [[.intV 1], [.intV 3]]⟩) =
      some ⟨["id"], [[.intV 1]]⟩ ∧
    compareCore ⟨["id"], [[.intV 1], [.intV 2]]⟩ ⟨["id"], [[.intV 1], [.intV 3]]⟩
        ["df2", "df2"] true true true true =
      [("same_values", .table ⟨["id"], [[.intV 1]]⟩),
        ("df2_not_df2", .table (onlyDF ⟨["id"], [[.intV 1], [.intV 3]]⟩
          ⟨["id"], [[.intV 1]]⟩)),
        ("df2_dups", .table ⟨(⟨["id"], [[.intV 1], [.intV 3]]⟩ : DF).cols,
          dupRows (⟨["id"], [[.intV 1], [.intV 3]]⟩ : DF).rows⟩),
        ("Same", .flag (decide
          (shape ⟨["id"], [[.intV 1], [.intV 2]]⟩ =
              shape ⟨["id"], [[.intV 1], [.intV 3]]⟩ ∧
            shape ⟨["id"], [[.intV 1], [.intV 2]]⟩ =
              shape ⟨["id"], [[.intV 1]]⟩)))] :=
  ⟨by decide, C10_duplicate_names_overwrite _ _ _ (by decide)⟩

end TableDiff
